import Mathlib

/-!
Verification of the QuantCoin node-local ledger store (`quantcoin.py`)
against its natural-language specification.

The Python source is shallowly embedded: byte strings become `List Nat`,
Python lists become Lean lists, the mutable `QuantCoin` object becomes an
explicit state record threaded through the operations, and code that can
raise an exception returns `Option` / an explicit `raised` outcome.
External collaborators (the `block` module, `hashlib`, `binascii`, the AES
block cipher, the JSON parser) are taken as parameters or modelled from the
spec where noted.
-/

namespace QC

/-- A transaction, as the store consumes it (spec §3, §6): the `block`
module is not part of the store's source, so the three accessors
`from_wallet`, `to_wallets`, `ammount_spent` (source spelling) are
Modelled from the spec: a source address, an ordered list of
(address, amount) destination pairs, and the total amount debited.
Amounts are rationals standing for the real-valued amounts. -/
structure Transaction where
  from_wallet : String
  to_wallets : List (String × Rat)
  ammount_spent : Rat
deriving DecidableEq, Repr

/-- A block, as the store consumes it. Modelled from the spec: opaque
beyond value equality and a `transactions()` accessor (spec §3, §6). -/
structure Block where
  transactions : List Transaction
deriving DecidableEq, Repr

/-- A peer: (host, port) pair (spec §3). -/
abbrev Peer := String × Nat

/-- A public-wallet directory record: (address, base64 public key). -/
abbrev PublicWallet := String × String

/-- A private wallet record `{private_key, public_key, address}`
(`create_wallet`, quantcoin.py lines 224-228). -/
structure Wallet where
  private_key : String
  public_key : String
  address : String
deriving DecidableEq, Repr

/-- The in-memory state of a `QuantCoin` object: the four collections set
up in `__init__` (quantcoin.py lines 21-28). -/
structure QuantCoin where
  blocks : List Block
  peers : List Peer
  public_wallets : List PublicWallet
  wallets : List Wallet
deriving DecidableEq, Repr

/-- `QuantCoin.__init__` (lines 21-28): `_blocks = []`,
`_peers = [("127.0.0.1", 65345)]`, `_public_wallets = []`,
`_wallets = []`. -/
def QuantCoin.init : QuantCoin :=
  { blocks := []
    peers := [("127.0.0.1", 65345)]
    public_wallets := []
    wallets := [] }

/-- `__pad` (lines 120-124): `m + (16 - len(m) % 16) * chr(16 - len(m) % 16)`.
Bytes are `Nat`s; `chr k` repeated `k` times is `List.replicate k k`. -/
def pad (m : List Nat) : List Nat :=
  m ++ List.replicate (16 - m.length % 16) (16 - m.length % 16)

/-- CPython's effective slice bound for step 1: a negative index counts
from the end, then the bound clamps to `[0, len]`. -/
def pyIndex (len idx : Int) : Int :=
  if idx < 0 then max (len + idx) 0 else min idx len

/-- CPython slicing `l[start:stop]` with step 1, via the effective bounds.
Used by `block` (line 157) and `__unpad` (line 130). -/
def pySlice {α : Type} (l : List α) (start stop : Int) : List α :=
  (l.drop (pyIndex l.length start).toNat).take
    (pyIndex l.length stop - pyIndex l.length start).toNat

/-- `__unpad` (lines 126-130): `m[0:-ord(m[-1])]`. On an empty string
`m[-1]` raises IndexError, hence `none`; otherwise the result is the
Python slice `m[0:-k]` where `k` is the last byte's value. -/
def unpad (m : List Nat) : Option (List Nat) :=
  match m.getLast? with
  | none => none
  | some k => some (pySlice m 0 (-(k : Int)))

/-- `store_wallet` (lines 171-176): append unless an equal value is
already present. -/
def QuantCoin.store_wallet (st : QuantCoin) (wallet : Wallet) : QuantCoin :=
  if wallet ∈ st.wallets then st
  else { st with wallets := st.wallets ++ [wallet] }

/-- The address computed by `store_public_wallet` (lines 182-183):
`"QC" + hashlib.sha1(binascii.a2b_base64(public_key)).hexdigest()`.
`a2b` is base64 decoding and `sha1hex` is the hex SHA-1 digest, both
library functions taken as parameters. -/
def spwAddress (a2b : String → List Nat) (sha1hex : List Nat → String)
    (public_key : String) : String :=
  "QC" ++ sha1hex (a2b public_key)

/-- `store_public_wallet` (lines 178-186): derive the address, pair it
with the supplied base64 key, append unless already present. -/
def QuantCoin.store_public_wallet (a2b : String → List Nat)
    (sha1hex : List Nat → String) (st : QuantCoin) (public_key : String) :
    QuantCoin :=
  if (spwAddress a2b sha1hex public_key, public_key) ∈ st.public_wallets then st
  else
    { st with public_wallets :=
        st.public_wallets ++ [(spwAddress a2b sha1hex public_key, public_key)] }

/-- `store_block` (lines 188-193): append unless already present. -/
def QuantCoin.store_block (st : QuantCoin) (block : Block) : QuantCoin :=
  if block ∈ st.blocks then st
  else { st with blocks := st.blocks ++ [block] }

/-- `store_node` (lines 195-200): append unless already present. -/
def QuantCoin.store_node (st : QuantCoin) (node : Peer) : QuantCoin :=
  if node ∈ st.peers then st
  else { st with peers := st.peers ++ [node] }

/-- `block` (lines 146-157): `self._blocks[start:end]`, Python slicing. -/
def QuantCoin.block (st : QuantCoin) (start stop : Int) : List Block :=
  pySlice st.blocks start stop

/-- The address computed by `create_wallet` (line 223):
`'QC' + hashlib.sha1(public_key.to_string()).hexdigest()`, a function of
the raw public key bytes. -/
def createWalletAddress (sha1hex : List Nat → String)
    (public_key_bytes : List Nat) : String :=
  "QC" ++ sha1hex public_key_bytes

/-- The parsed contents of a public-store JSON file: the three arrays
`blocks`, `peers`, `public_wallets` (`load`, lines 40-46). JSON decoding
and `Block.from_json` are external, so `load` is modelled on already
parsed values. -/
structure Storage where
  blocks : List Block
  peers : List Peer
  public_wallets : List PublicWallet
deriving DecidableEq, Repr

/-- `load` (lines 30-50) when the file exists: replace the three public
collections with the file's (parsed) contents, verbatim — no
de-duplication is performed. The wallets are untouched. -/
def QuantCoin.load (st : QuantCoin) (storage : Storage) : QuantCoin :=
  { st with
    blocks := storage.blocks
    peers := storage.peers
    public_wallets := storage.public_wallets }

/-- Splitting worker: each step emits one 16-byte chunk and consumes at
least one element, so the input's length bounds the recursion. -/
def chunks16Aux : Nat → List Nat → List (List Nat)
  | 0, _ => []
  | _, [] => []
  | fuel + 1, l => l.take 16 :: chunks16Aux fuel (l.drop 16)

/-- Split a byte string into 16-byte cipher blocks (the AES block size),
the last chunk possibly shorter. -/
def chunks16 (l : List Nat) : List (List Nat) :=
  chunks16Aux l.length l

/-- CBC-mode decryption. Modelled from the spec: "Decrypts with a
256-bit-key block cipher in CBC mode" (§4.2) — the AES library is not
part of the source, so the per-block cipher `blockDec` is a parameter
and only the CBC chaining (plaintext block = decrypted block XOR previous
ciphertext block, starting from the IV) is concrete. On an empty
ciphertext the result is empty. -/
def cbcDecrypt (blockDec : List Nat → List Nat) (iv ct : List Nat) :
    List Nat :=
  ((chunks16 ct).foldl
    (fun (acc : List Nat × List Nat) blk =>
      (acc.1 ++ List.zipWith Nat.xor (blockDec blk) acc.2, blk))
    ([], iv)).1

/-- Outcome of a call to `load_private`: either an uncaught exception
propagates to the caller, or the call returns a boolean together with the
resulting in-memory state. -/
inductive LPResult where
  | raised : LPResult
  | returned : Bool → QuantCoin → LPResult
deriving DecidableEq, Repr

/-- `load_private` (lines 69-96). The filesystem is a map from paths to
byte contents (`none` = file absent); `sha256` is the key derivation
`hashlib.sha256(password).digest()`; `blockDec` the AES-256 per-block
decryption under that key; `parse` the `json.loads(...)['wallets']` step
(`none` = an exception was raised while parsing).

Control flow as in the source: a missing main file is a soft `False`
(lines 93-96); the sidecar IV open (line 82), the `AES.new` IV length
check (lines 84-85), the decrypt length check and `__unpad` (line 86) all
happen outside the `try`, so their exceptions propagate; only the parse
step (lines 87-92) is guarded, turning its exception into a `False`
return that leaves the wallets unchanged. -/
def QuantCoin.load_private (sha256 : String → List Nat)
    (blockDec : List Nat → List Nat → List Nat)
    (parse : List Nat → Option (List Wallet))
    (fs : String → Option (List Nat))
    (st : QuantCoin) (database password : String) : LPResult :=
  match fs database with
  | none => .returned false st
  | some ct =>
    match fs (database ++ ".iv") with
    | none => .raised
    | some iv =>
      if iv.length ≠ 16 then .raised
      else if ct.length % 16 ≠ 0 then .raised
      else
        match unpad (cbcDecrypt (blockDec (sha256 password)) iv ct) with
        | none => .raised
        | some storage_json =>
          match parse storage_json with
          | none => .returned false st
          | some ws => .returned true { st with wallets := ws }

/-- `ammount_owned` (lines 231-250, source spelling): fold over all blocks
and their transactions; debit `ammount_spent` when the queried wallet is
the source, otherwise credit every amount paired with the wallet among the
destinations. -/
def QuantCoin.ammount_owned (st : QuantCoin) (wallet : String) : Rat :=
  st.blocks.foldl (fun acc block =>
    block.transactions.foldl (fun acc transaction =>
      if wallet = transaction.from_wallet then
        acc - transaction.ammount_spent
      else
        transaction.to_wallets.foldl (fun acc p =>
          if p.1 = wallet then acc + p.2 else acc) acc) acc) 0

/-- The net contribution of one transaction to the balance of `wallet`
(spec §4.4): the pure debit when `wallet` is the source — nothing is
credited in that case — and otherwise the sum of all amounts paired with
`wallet` among the destinations. -/
def txContrib (wallet : String) (t : Transaction) : Rat :=
  if wallet = t.from_wallet then -t.ammount_spent
  else ((t.to_wallets.filter (fun p => p.1 = wallet)).map Prod.snd).sum

/-- The net contribution of one block to the balance of `wallet`: the sum
of its transactions' contributions. -/
def blockContrib (wallet : String) (b : Block) : Rat :=
  (b.transactions.map (txContrib wallet)).sum

/-- The balance scenario of spec §8.7: a chain with one block holding one
transaction from `"A"` to `[("B", 30), ("A", 5)]` with `ammount_spent = 30`. -/
def scenarioState : QuantCoin :=
  { blocks := [⟨[⟨"A", [("B", (30 : Rat)), ("A", (5 : Rat))], (30 : Rat)⟩]⟩]
    peers := []
    public_wallets := []
    wallets := [] }

/-- A store whose chain holds three pairwise distinct blocks, used to
exercise `block(start, end)` on concrete ranges. -/
def st3 : QuantCoin :=
  { blocks := [⟨[]⟩, ⟨[⟨"x", [], (1 : Rat)⟩]⟩, ⟨[⟨"y", [], (2 : Rat)⟩]⟩]
    peers := []
    public_wallets := []
    wallets := [] }

/-- A filesystem holding an empty ciphertext file at `"d"` and a valid
16-byte IV at `"d.iv"`: the main file exists, decryption of the empty
ciphertext yields the empty string, and `__unpad` then raises IndexError
on `m[-1]`. -/
def fsEmptyCipher : String → Option (List Nat) := fun p =>
  if p = "d" then some []
  else if p = "d.iv" then some (List.replicate 16 0)
  else none

/-- A filesystem holding a one-block ciphertext at `"d"` and a valid
16-byte IV at `"d.iv"`; with the identity per-block cipher the plaintext
is sixteen `1` bytes, so `__unpad` strips one byte and hands fifteen `1`
bytes to the JSON parse step. -/
def fsOneBlock : String → Option (List Nat) := fun p =>
  if p = "d" then some (List.replicate 16 1)
  else if p = "d.iv" then some (List.replicate 16 0)
  else none

/-- A filesystem holding a ciphertext file at `"d"` but no sidecar
`"d.iv"` file. -/
def fsNoIv : String → Option (List Nat) := fun p =>
  if p = "d" then some [] else none

/-- States reachable from the initial state by any sequence of the
store's operations: the four `store_*` insertions, `load` (replacing the
three public collections with a parsed file), and a successful
`load_private` (replacing the wallet list with the parsed `wallets`
field; the failing outcomes leave the state unchanged, already covered). -/
inductive Reachable : QuantCoin → Prop where
  | init : Reachable QuantCoin.init
  | store_wallet (st : QuantCoin) (w : Wallet) :
      Reachable st → Reachable (st.store_wallet w)
  | store_block (st : QuantCoin) (b : Block) :
      Reachable st → Reachable (st.store_block b)
  | store_node (st : QuantCoin) (p : Peer) :
      Reachable st → Reachable (st.store_node p)
  | store_public_wallet (a2b : String → List Nat)
      (sha1hex : List Nat → String) (st : QuantCoin) (pk : String) :
      Reachable st → Reachable (QuantCoin.store_public_wallet a2b sha1hex st pk)
  | load (st : QuantCoin) (storage : Storage) :
      Reachable st → Reachable (st.load storage)
  | load_private (st : QuantCoin) (ws : List Wallet) :
      Reachable st → Reachable { st with wallets := ws }

/-- States reachable from the initial state using only the four `store_*`
insertion operations (no `load`/`load_private`). -/
inductive StoreReachable : QuantCoin → Prop where
  | init : StoreReachable QuantCoin.init
  | store_wallet (st : QuantCoin) (w : Wallet) :
      StoreReachable st → StoreReachable (st.store_wallet w)
  | store_block (st : QuantCoin) (b : Block) :
      StoreReachable st → StoreReachable (st.store_block b)
  | store_node (st : QuantCoin) (p : Peer) :
      StoreReachable st → StoreReachable (st.store_node p)
  | store_public_wallet (a2b : String → List Nat)
      (sha1hex : List Nat → String) (st : QuantCoin) (pk : String) :
      StoreReachable st → StoreReachable (QuantCoin.store_public_wallet a2b sha1hex st pk)

/-! ### Helper lemmas -/

/-- A non-negative index clamps to `min idx len`. -/
theorem pyIndex_nonneg (len i : Int) (h : 0 ≤ i) :
    pyIndex len i = min i len := by
  rw [pyIndex, if_neg (by omega)]

/-- With non-negative bounds, a Python slice is a drop followed by a take. -/
theorem pySlice_nonneg {α : Type} (l : List α) (s e : Int)
    (hs : 0 ≤ s) (he : 0 ≤ e) :
    pySlice l s e = (l.drop s.toNat).take (e.toNat - s.toNat) := by
  rw [pySlice, pyIndex_nonneg _ _ hs, pyIndex_nonneg _ _ he]
  rcases le_or_lt s (l.length : Int) with hsl | hsl
  · rw [min_eq_left hsl]
    rcases le_or_lt e (l.length : Int) with hel | hel
    · rw [min_eq_left hel]
      congr 1
      omega
    · rw [min_eq_right (le_of_lt hel)]
      have hd : (l.drop s.toNat).length = l.length - s.toNat := by
        simp [List.length_drop]
      rw [List.take_of_length_le (by omega), List.take_of_length_le (by omega)]
  · rw [min_eq_right (le_of_lt hsl)]
    have h1 : l.drop ((l.length : Int)).toNat = [] := by
      simp
    have h2 : l.drop s.toNat = [] := by
      apply List.drop_eq_nil_of_le
      omega
    rw [h1, h2]
    simp

/-- A Python slice `m[0:-k]` with `1 ≤ k ≤ len` keeps the first
`len - k` elements. -/
theorem pySlice_zero_neg {α : Type} (l : List α) (k : Nat)
    (hk1 : 1 ≤ k) (hkl : k ≤ l.length) :
    pySlice l 0 (-(k : Int)) = l.take (l.length - k) := by
  rw [pySlice]
  have h0 : pyIndex (l.length : Int) 0 = 0 := by
    rw [pyIndex, if_neg (by omega)]
    omega
  have hneg : pyIndex (l.length : Int) (-(k : Int)) = (l.length : Int) - k := by
    rw [pyIndex, if_pos (by omega)]
    omega
  rw [h0, hneg, show ((0 : Int)).toNat = 0 from rfl, List.drop_zero]
  congr 1
  omega

/-- A nonempty run of replicated elements ends in the replicated element. -/
theorem getLast?_replicate_pos {α : Type} (a : α) (k : Nat) (hk : 1 ≤ k) :
    (List.replicate k a).getLast? = some a := by
  obtain ⟨n, rfl⟩ : ∃ n, k = n + 1 := ⟨k - 1, by omega⟩
  rw [List.replicate_succ', List.getLast?_concat]

/-- The last byte of a padded message is the pad length. -/
theorem pad_getLast (m : List Nat) :
    (pad m).getLast? = some (16 - m.length % 16) := by
  have hk : 1 ≤ 16 - m.length % 16 := by omega
  have hne : List.replicate (16 - m.length % 16) (16 - m.length % 16) ≠ [] :=
    List.ne_nil_of_length_pos (by rw [List.length_replicate]; omega)
  rw [pad, List.getLast?_append_of_ne_nil _ hne, getLast?_replicate_pos _ _ hk]

/-- Membership survives a conditional append, so a second identical
`store_*` call finds its value already present. -/
theorem mem_after_store {α : Type} [DecidableEq α] (l : List α) (v : α) :
    v ∈ (if v ∈ l then l else l ++ [v]) := by
  by_cases h : v ∈ l <;> simp [h]

/-! ### Claim theorems -/

/-- C2. For every byte string `x` of length 0 to 1000,
`unpad(pad(x)) = x`: the vault's padding and unpadding round-trip. -/
theorem c2_pad_unpad_roundtrip (x : List Nat) (h : x.length ≤ 1000) :
    unpad (pad x) = some x := by
  have hk1 : 1 ≤ 16 - x.length % 16 := by omega
  have hlen : (pad x).length = x.length + (16 - x.length % 16) := by
    simp [pad]
  unfold unpad
  rw [pad_getLast]
  show some (pySlice (pad x) 0 (-((16 - x.length % 16 : Nat) : Int))) = some x
  rw [pySlice_zero_neg (pad x) _ hk1 (by omega), hlen,
    show x.length + (16 - x.length % 16) - (16 - x.length % 16) = x.length by omega,
    pad, List.take_left' rfl]

/-- C2 witness: the round-trip at the concrete byte string `[5, 6]`. -/
theorem c2_pad_unpad_roundtrip_witness :
    ([5, 6] : List Nat).length ≤ 1000 ∧ unpad (pad [5, 6]) = some [5, 6] :=
  ⟨by decide, c2_pad_unpad_roundtrip [5, 6] (by decide)⟩

/-- C3. `pad` appends exactly `16 - (L % 16)` bytes — between 1 and 16,
a full block when `L` is a multiple of 16, never 0 — each holding the
integer value of the pad length itself. -/
theorem c3_pad_shape (m : List Nat) :
    pad m = m ++ List.replicate (16 - m.length % 16) (16 - m.length % 16) ∧
    (pad m).length = m.length + (16 - m.length % 16) ∧
    1 ≤ 16 - m.length % 16 ∧
    16 - m.length % 16 ≤ 16 ∧
    (m.length % 16 = 0 → 16 - m.length % 16 = 16) ∧
    ∀ b ∈ (pad m).drop m.length, b = 16 - m.length % 16 := by
  refine ⟨rfl, ?_, by omega, by omega, by omega, ?_⟩
  · simp [pad]
  · intro b hb
    rw [pad, List.drop_left] at hb
    exact (List.eq_of_mem_replicate hb)

/-- C5. Each of the four `store_*` operations is idempotent: a second
call with the same value leaves the respective collection's length
unchanged. -/
theorem c5_store_idempotent (a2b : String → List Nat)
    (sha1hex : List Nat → String) (st : QuantCoin)
    (b : Block) (p : Peer) (w : Wallet) (pk : String) :
    ((st.store_block b).store_block b).blocks.length
      = (st.store_block b).blocks.length ∧
    ((st.store_node p).store_node p).peers.length
      = (st.store_node p).peers.length ∧
    ((st.store_wallet w).store_wallet w).wallets.length
      = (st.store_wallet w).wallets.length ∧
    (QuantCoin.store_public_wallet a2b sha1hex
        (QuantCoin.store_public_wallet a2b sha1hex st pk) pk).public_wallets.length
      = (QuantCoin.store_public_wallet a2b sha1hex st pk).public_wallets.length := by
  refine ⟨?_, ?_, ?_, ?_⟩
  · by_cases h : b ∈ st.blocks <;>
      simp [QuantCoin.store_block, h]
  · by_cases h : p ∈ st.peers <;>
      simp [QuantCoin.store_node, h]
  · by_cases h : w ∈ st.wallets <;>
      simp [QuantCoin.store_wallet, h]
  · by_cases h : (spwAddress a2b sha1hex pk, pk) ∈ st.public_wallets <;>
      simp [QuantCoin.store_public_wallet, h]

/-- C7 counterexample: a freshly constructed store does NOT have an empty
peer list — `__init__` seeds it with the peer `("127.0.0.1", 65345)`. -/
theorem c7_counterexample : QuantCoin.init.peers ≠ [] := by decide

/-- C7 amended: at construction the block sequence, the public-wallet
directory, and the private wallet list are empty, while the peer list
holds exactly the single seed peer `("127.0.0.1", 65345)`. -/
theorem c7_initial_state :
    QuantCoin.init.blocks = [] ∧
    QuantCoin.init.public_wallets = [] ∧
    QuantCoin.init.wallets = [] ∧
    QuantCoin.init.peers = [("127.0.0.1", 65345)] :=
  ⟨rfl, rfl, rfl, rfl⟩

/-- Folding the destination credits of one transaction adds the sum of
the amounts paired with the queried wallet. -/
theorem foldl_credit (w : String) (ps : List (String × Rat)) (a : Rat) :
    ps.foldl (fun acc p => if p.1 = w then acc + p.2 else acc) a
      = a + ((ps.filter (fun p => p.1 = w)).map Prod.snd).sum := by
  induction ps generalizing a with
  | nil => simp
  | cons hd tl ih =>
    by_cases h : hd.1 = w
    · rw [List.foldl_cons, if_pos h, ih,
        List.filter_cons_of_pos (by simp [h]), List.map_cons, List.sum_cons]
      ring
    · rw [List.foldl_cons, if_neg h, ih,
        List.filter_cons_of_neg (by simp [h])]

/-- Folding the transactions of one block adds the sum of the per
transaction contributions. -/
theorem foldl_tx (w : String) (ts : List Transaction) (a : Rat) :
    ts.foldl (fun acc transaction =>
      if w = transaction.from_wallet then acc - transaction.ammount_spent
      else transaction.to_wallets.foldl
        (fun acc p => if p.1 = w then acc + p.2 else acc) acc) a
      = a + (ts.map (txContrib w)).sum := by
  induction ts generalizing a with
  | nil => simp
  | cons hd tl ih =>
    rw [List.foldl_cons]
    by_cases h : w = hd.from_wallet
    · rw [if_pos h, ih, List.map_cons, List.sum_cons, txContrib, if_pos h]
      ring
    · rw [if_neg h, foldl_credit, ih, List.map_cons, List.sum_cons,
        txContrib, if_neg h]
      ring

/-- Folding the blocks of the chain adds the sum of the per-block
contributions. -/
theorem foldl_blocks (w : String) (bs : List Block) (a : Rat) :
    bs.foldl (fun acc block =>
      block.transactions.foldl (fun acc transaction =>
        if w = transaction.from_wallet then acc - transaction.ammount_spent
        else transaction.to_wallets.foldl
          (fun acc p => if p.1 = w then acc + p.2 else acc) acc) acc) a
      = a + (bs.map (blockContrib w)).sum := by
  induction bs generalizing a with
  | nil => simp
  | cons hd tl ih =>
    rw [List.foldl_cons, foldl_tx, ih, List.map_cons, List.sum_cons,
      blockContrib]
    ring

/-- C1. `ammount_owned` accumulates over all blocks and transactions:
a transaction whose source is the queried wallet contributes only the
debit `ammount_spent` — nothing is credited for that transaction, even
when the wallet is among its own destinations — and any other transaction
contributes the sum of the amounts paired with the wallet among its
destinations. In the concrete scenario of one transaction from `"A"` to
`[("B", 30), ("A", 5)]` with `ammount_spent = 30`, the balances are
`-30` for `"A"`, `30` for `"B"`, and `0` for `"other"`. -/
theorem c1_ammount_owned :
    (∀ (st : QuantCoin) (w : String),
      st.ammount_owned w = (st.blocks.map (blockContrib w)).sum) ∧
    scenarioState.ammount_owned "A" = -30 ∧
    scenarioState.ammount_owned "B" = 30 ∧
    scenarioState.ammount_owned "other" = 0 := by
  have hgen : ∀ (st : QuantCoin) (w : String),
      st.ammount_owned w = (st.blocks.map (blockContrib w)).sum := by
    intro st w
    rw [QuantCoin.ammount_owned, foldl_blocks]
    ring
  refine ⟨hgen, ?_, ?_, ?_⟩ <;>
    rw [hgen] <;>
    simp +decide [scenarioState, blockContrib, txContrib]

/-- C6 counterexample: on a chain of three blocks, the slice
`block(-2, 3)` has length 2, but the claimed formula
`max(0, min(end, len) - max(start, 0))` gives 3, and the result is not
empty either — a negative start wraps Python-style instead. -/
theorem c6_counterexample :
    ((st3.block (-2) 3).length : Int)
      ≠ max 0 (min 3 (st3.blocks.length : Int) - max (-2) 0) ∧
    st3.block (-2) 3 ≠ [] := by
  decide

/-- C6 amended: for non-negative `start` and `end`, `block(start, end)`
is the contiguous half-open slice `[start, end)` with clamping and its
length is `max(0, min(end, len) - max(start, 0))`; negative indices
instead count from the end of the chain, CPython style. -/
theorem c6_block_slice (st : QuantCoin) (s e : Int)
    (hs : 0 ≤ s) (he : 0 ≤ e) :
    st.block s e = (st.blocks.drop s.toNat).take (e.toNat - s.toNat) ∧
    ((st.block s e).length : Int)
      = max 0 (min e (st.blocks.length : Int) - max s 0) := by
  have h := pySlice_nonneg st.blocks s e hs he
  constructor
  · rw [QuantCoin.block, h]
  · rw [QuantCoin.block, h, List.length_take, List.length_drop]
    omega

/-- C6 witness: the amended statement at the three-block chain with the
concrete range `[1, 3)`. -/
theorem c6_block_slice_witness :
    st3.block 1 3
      = (st3.blocks.drop ((1 : Int)).toNat).take
          (((3 : Int)).toNat - ((1 : Int)).toNat) ∧
    ((st3.block 1 3).length : Int)
      = max 0 (min 3 (st3.blocks.length : Int) - max 1 0) :=
  c6_block_slice st3 1 3 (by decide) (by decide)

/-- C8. Address derivation is one pure function of the raw public key
bytes — the tag `"QC"` followed by the hex SHA-1 digest — and the
`store_public_wallet` path applied to the base64 encoding of the key
computes the same address as the `create_wallet` path, whenever base64
decoding inverts encoding. -/
theorem c8_address_derivation (sha1hex : List Nat → String)
    (a2b : String → List Nat) (b2a : List Nat → String)
    (pk : List Nat) (h : a2b (b2a pk) = pk) :
    spwAddress a2b sha1hex (b2a pk) = createWalletAddress sha1hex pk ∧
    createWalletAddress sha1hex pk = "QC" ++ sha1hex pk := by
  constructor
  · rw [spwAddress, createWalletAddress, h]
  · rfl

/-- C8 witness: the two derivation paths agree at the concrete key bytes
`[1, 2, 3]` under a concrete encode/decode pair that round-trips. -/
theorem c8_address_derivation_witness :
    spwAddress (fun s => s.data.map Char.toNat) (fun _ => "ab")
        ((fun l => String.mk (l.map Char.ofNat)) [1, 2, 3])
      = createWalletAddress (fun _ => "ab") [1, 2, 3] ∧
    createWalletAddress (fun _ => "ab") [1, 2, 3]
      = "QC" ++ (fun _ => "ab") [1, 2, 3] :=
  c8_address_derivation (fun _ => "ab") (fun s => s.data.map Char.toNat)
    (fun l => String.mk (l.map Char.ofNat)) [1, 2, 3] (by decide)

/-- A conditional de-duplicating append preserves freedom from
duplicates. -/
theorem store_preserves_nodup {α : Type} [DecidableEq α] {l : List α}
    (v : α) (h : l.Nodup) : (if v ∈ l then l else l ++ [v]).Nodup := by
  by_cases hv : v ∈ l
  · rw [if_pos hv]
    exact h
  · rw [if_neg hv]
    simp [List.nodup_append, h, hv]

/-- C9 counterexample: a `load` of a file whose peer array repeats the
same peer is a reachable step, and it leaves the peer list with a
duplicate entry — `load` copies the parsed arrays verbatim, with no
de-duplication. -/
theorem c9_counterexample :
    Reachable (QuantCoin.init.load ⟨[], [("h", 1), ("h", 1)], []⟩) ∧
    ¬ (QuantCoin.init.load ⟨[], [("h", 1), ("h", 1)], []⟩).peers.Nodup :=
  ⟨Reachable.load _ _ Reachable.init, by decide⟩

/-- C9 amended: in every state reachable from the initial state by the
four `store_*` insertion operations alone, all four collections are free
of duplicates; `load`/`load_private` can instead introduce any duplicates
present in the loaded file. -/
theorem c9_store_reachable_nodup (st : QuantCoin) (h : StoreReachable st) :
    st.blocks.Nodup ∧ st.peers.Nodup ∧
    st.public_wallets.Nodup ∧ st.wallets.Nodup := by
  induction h with
  | init => exact ⟨by decide, by decide, by decide, by decide⟩
  | store_wallet st w _ ih =>
    obtain ⟨h1, h2, h3, h4⟩ := ih
    by_cases c : w ∈ st.wallets
    · rw [QuantCoin.store_wallet, if_pos c]
      exact ⟨h1, h2, h3, h4⟩
    · rw [QuantCoin.store_wallet, if_neg c]
      exact ⟨h1, h2, h3, by simp [List.nodup_append, h4, c]⟩
  | store_block st b _ ih =>
    obtain ⟨h1, h2, h3, h4⟩ := ih
    by_cases c : b ∈ st.blocks
    · rw [QuantCoin.store_block, if_pos c]
      exact ⟨h1, h2, h3, h4⟩
    · rw [QuantCoin.store_block, if_neg c]
      exact ⟨by simp [List.nodup_append, h1, c], h2, h3, h4⟩
  | store_node st p _ ih =>
    obtain ⟨h1, h2, h3, h4⟩ := ih
    by_cases c : p ∈ st.peers
    · rw [QuantCoin.store_node, if_pos c]
      exact ⟨h1, h2, h3, h4⟩
    · rw [QuantCoin.store_node, if_neg c]
      exact ⟨h1, by simp [List.nodup_append, h2, c], h3, h4⟩
  | store_public_wallet a2b sha1hex st pk _ ih =>
    obtain ⟨h1, h2, h3, h4⟩ := ih
    by_cases c : (spwAddress a2b sha1hex pk, pk) ∈ st.public_wallets
    · rw [QuantCoin.store_public_wallet, if_pos c]
      exact ⟨h1, h2, h3, h4⟩
    · rw [QuantCoin.store_public_wallet, if_neg c]
      exact ⟨h1, h2, by simp [List.nodup_append, h3, c], h4⟩

/-- C9 witness: the amended invariant holds at a concrete state reached
by two insertions from the initial state. -/
theorem c9_store_reachable_nodup_witness :
    ((QuantCoin.init.store_node ("10.0.0.1", 80)).store_block ⟨[]⟩).blocks.Nodup ∧
    ((QuantCoin.init.store_node ("10.0.0.1", 80)).store_block ⟨[]⟩).peers.Nodup ∧
    ((QuantCoin.init.store_node ("10.0.0.1", 80)).store_block ⟨[]⟩).public_wallets.Nodup ∧
    ((QuantCoin.init.store_node ("10.0.0.1", 80)).store_block ⟨[]⟩).wallets.Nodup :=
  c9_store_reachable_nodup _
    (StoreReachable.store_block _ _
      (StoreReachable.store_node _ _ StoreReachable.init))

/-- C10. When the main ciphertext file exists but the sidecar IV file
`path + ".iv"` does not, `load_private` raises an uncaught file-open
error instead of returning `False`: the soft not-found handling checks
only the main file, and the sidecar open sits outside the exception
handler. -/
theorem c10_missing_iv_raises (sha256 : String → List Nat)
    (blockDec : List Nat → List Nat → List Nat)
    (parse : List Nat → Option (List Wallet))
    (fs : String → Option (List Nat)) (st : QuantCoin)
    (db pw : String) (ct : List Nat)
    (h1 : fs db = some ct) (h2 : fs (db ++ ".iv") = none) :
    QuantCoin.load_private sha256 blockDec parse fs st db pw
      = LPResult.raised := by
  simp [QuantCoin.load_private, h1, h2]

/-- C10 witness: the sidecar-less filesystem `fsNoIv` at path `"d"`. -/
theorem c10_missing_iv_raises_witness :
    QuantCoin.load_private (fun _ => []) (fun _ b => b) (fun _ => none)
      fsNoIv QuantCoin.init "d" "pw" = LPResult.raised :=
  c10_missing_iv_raises (fun _ => []) (fun _ b => b) (fun _ => none)
    fsNoIv QuantCoin.init "d" "pw" [] (by decide) (by decide)

/-- C4 counterexample: an existing main file holding an empty ciphertext
together with a valid 16-byte IV makes the decrypt-unpad sequence raise
(`__unpad` evaluates `m[-1]` on the empty plaintext), and `load_private`
propagates the exception instead of returning `False`. -/
theorem c4_counterexample :
    QuantCoin.load_private (fun _ => []) (fun _ b => b) (fun _ => none)
      fsEmptyCipher QuantCoin.init "d" "pw" = LPResult.raised ∧
    fsEmptyCipher "d" = some [] := by
  decide

/-- C4 amended: on an existing main file with a well-formed IV and
ciphertext, only an exception in the JSON parsing step is caught and
reported as a `False` return with the wallet collection unchanged;
`load_private` returns `True` exactly when parsing succeeds, replacing
the wallets with the parsed list, and an exception while unpadding
propagates to the caller. -/
theorem c4_load_private_amended (sha256 : String → List Nat)
    (blockDec : List Nat → List Nat → List Nat)
    (parse : List Nat → Option (List Wallet))
    (fs : String → Option (List Nat)) (st : QuantCoin)
    (db pw : String) (ct iv : List Nat)
    (h1 : fs db = some ct) (h2 : fs (db ++ ".iv") = some iv)
    (h3 : iv.length = 16) (h4 : ct.length % 16 = 0) :
    (unpad (cbcDecrypt (blockDec (sha256 pw)) iv ct) = none →
      QuantCoin.load_private sha256 blockDec parse fs st db pw
        = LPResult.raised) ∧
    (∀ sj, unpad (cbcDecrypt (blockDec (sha256 pw)) iv ct) = some sj →
      parse sj = none →
      QuantCoin.load_private sha256 blockDec parse fs st db pw
        = LPResult.returned false st) ∧
    (∀ sj ws, unpad (cbcDecrypt (blockDec (sha256 pw)) iv ct) = some sj →
      parse sj = some ws →
      QuantCoin.load_private sha256 blockDec parse fs st db pw
        = LPResult.returned true { st with wallets := ws }) := by
  refine ⟨?_, ?_, ?_⟩
  · intro hu
    simp [QuantCoin.load_private, h1, h2, h3, h4, hu]
  · intro sj hu hp
    simp [QuantCoin.load_private, h1, h2, h3, h4, hu, hp]
  · intro sj ws hu hp
    simp [QuantCoin.load_private, h1, h2, h3, h4, hu, hp]

/-- C4 witness: with a one-block ciphertext, identity block cipher, and a
parse step that fails, `load_private` returns `False` and leaves the
initial state unchanged. -/
theorem c4_load_private_amended_witness :
    QuantCoin.load_private (fun _ => []) (fun _ b => b) (fun _ => none)
      fsOneBlock QuantCoin.init "d" "pw"
      = LPResult.returned false QuantCoin.init :=
  (c4_load_private_amended (fun _ => []) (fun _ b => b) (fun _ => none)
      fsOneBlock QuantCoin.init "d" "pw"
      (List.replicate 16 1) (List.replicate 16 0)
      (by decide) (by decide) (by decide) (by decide)).2.1
    (List.replicate 15 1) (by decide) rfl

end QC
